import Mathlib

/-!
Shallow embedding of the cursor-dual-model-proxy request pipeline
(src/index.js).  The proxy receives a chat-completion request, optionally
gathers a "thought" fragment from a local model endpoint, forwards the
enriched request to an upstream completion endpoint, and relays the
response.  JavaScript objects are modelled as records with opaque type
parameters standing for the passthrough fields the code never inspects;
host-library string operations are modelled over `List Char`.
-/

namespace CursorProxy

/-- Chat message, the `{role, content}` objects of `req.body.messages`. -/
structure Message where
  role : String
  content : String
deriving DecidableEq

/-- Value found at the `messages` key of an inbound JSON payload: absent,
present-but-not-an-array (opaque value of type `μ`), or an array. -/
inductive MessagesVal (μ : Type) where
  | absent : MessagesVal μ
  | nonArray (v : μ) : MessagesVal μ
  | arr (ms : List Message) : MessagesVal μ
deriving DecidableEq

/-- Raw inbound request body.  `stream` is the truthiness of the `stream`
field, `model` the caller-supplied model field if any, `tools` the `tools`
field if present (opaque, type `τ`), `options_stop` the `options` field
modelled by its `stop` array, and `rest` all remaining passthrough fields
(opaque, type `ρ`). -/
structure Payload (μ τ ρ : Type) where
  messages : MessagesVal μ
  stream : Bool
  model : Option String
  tools : Option τ
  options_stop : Option (List String)
  rest : ρ
deriving DecidableEq

/-- The `APIError` class of src/index.js: a message plus an HTTP status. -/
structure APIError where
  message : String
  statusCode : Nat
deriving DecidableEq

/-- Validated chat request: like `Payload` but `messages` is known to be an
array.  `validateRequest` returns `req.body` itself in the source; here the
retyped copy carries every field across unchanged. -/
structure ChatReq (τ ρ : Type) where
  messages : List Message
  stream : Bool
  model : Option String
  tools : Option τ
  options_stop : Option (List String)
  rest : ρ
deriving DecidableEq

instance {ε α : Type} [DecidableEq ε] [DecidableEq α] : DecidableEq (Except ε α) := fun x y =>
  match x, y with
  | Except.ok a, Except.ok b =>
    if h : a = b then isTrue (h ▸ rfl)
    else isFalse (fun g => by injection g with g2; exact h g2)
  | Except.error a, Except.error b =>
    if h : a = b then isTrue (h ▸ rfl)
    else isFalse (fun g => by injection g with g2; exact h g2)
  | Except.ok _, Except.error _ => isFalse (fun g => Except.noConfusion g)
  | Except.error _, Except.ok _ => isFalse (fun g => Except.noConfusion g)

/-- Constant `DEEPSEEK_CHAT_MODEL` of src/index.js. -/
def DEEPSEEK_CHAT_MODEL : String := "deepseek-r1:1.5b"

/-- Constant `CLAUDE_MODEL` of src/index.js. -/
def CLAUDE_MODEL : String := "anthropic/claude-3.5-sonnet"

/-- Constant `DEFAULT_PORT` of src/index.js. -/
def DEFAULT_PORT : Nat := 9000

/-- Text following the first occurrence of `pat` in `l`, or `none` when
`pat` does not occur.  Models the regex match `/<think>(.*)/s` (group 1)
and substring search generally. -/
def afterFirst (pat : List Char) : List Char → Option (List Char)
  | [] => none
  | c :: cs =>
    if pat.isPrefixOf (c :: cs) then some ((c :: cs).drop pat.length)
    else afterFirst pat cs

/-- Removal of the first occurrence of `pat` from `l`; `l` unchanged when
`pat` does not occur.  Models `String.prototype.replace(pat, "")` with a
string pattern, which replaces only the first occurrence. -/
def replaceFirst (pat : List Char) : List Char → List Char
  | [] => []
  | c :: cs =>
    if pat.isPrefixOf (c :: cs) then (c :: cs).drop pat.length
    else c :: replaceFirst pat cs

/-- Whitespace trim at both ends, modelling `String.prototype.trim`
(restricted to ASCII whitespace, the only kind relevant here). -/
def trimChars (l : List Char) : List Char :=
  ((l.dropWhile Char.isWhitespace).reverse.dropWhile Char.isWhitespace).reverse

/-- Split at every newline, keeping empty segments: models
`String.prototype.split` applied to a newline separator. -/
def splitLines : List Char → List (List Char)
  | [] => [[]]
  | c :: cs =>
    if c = '\n' then [] :: splitLines cs
    else
      match splitLines cs with
      | [] => [[c]]
      | l :: ls => (c :: l) :: ls

/-- Source lines 25-31, `validateRequest`: reject unless `messages` is a
non-empty array, otherwise return the body (all fields carried across). -/
def validateRequest {μ τ ρ : Type} (p : Payload μ τ ρ) : Except APIError (ChatReq τ ρ) :=
  match p.messages with
  | MessagesVal.arr ms =>
    if ms.length = 0 then
      Except.error ⟨"Invalid request: messages array is required", 400⟩
    else
      Except.ok ⟨ms, p.stream, p.model, p.tools, p.options_stop, p.rest⟩
  | _ => Except.error ⟨"Invalid request: messages array is required", 400⟩

/-- Source lines 33-39, `getOpenRouterKey`:
`req.headers.authorization?.replace('Bearer ', '')`, then a truthiness
check raising the 401 error.  `auth` is the Authorization header
(`none` when absent). -/
def getOpenRouterKey (auth : Option String) : Except APIError String :=
  match auth with
  | none => Except.error ⟨"Missing OpenRouter API key", 401⟩
  | some a =>
    let key := String.mk (replaceFirst "Bearer ".data a.data)
    if key = "" then Except.error ⟨"Missing OpenRouter API key", 401⟩
    else Except.ok key

/-- Message remap of source line 74: role `tool` becomes `user`, every
other role is kept, and only `role`/`content` are carried over. -/
def remapMsg (m : Message) : Message :=
  ⟨if m.role = "tool" then "user" else m.role, m.content⟩

/-- Source lines 70-78, `prepareOllamaRequest`: drop `tools`, remap the
messages, force the local model name, set `options.stop` to the single
literal `</think>` token; all other fields spread through. -/
def prepareOllamaRequest {τ ρ : Type} (c : ChatReq τ ρ) : ChatReq τ ρ :=
  { messages := c.messages.map remapMsg
    stream := c.stream
    model := some DEEPSEEK_CHAT_MODEL
    tools := none
    options_stop := some ["</think>"]
    rest := c.rest }

/-- Source lines 139-151, `prepareOpenRouterRequest`: spread the original
request, override the model, and append one assistant message exactly when
the thought content is truthy (a non-empty string). -/
def prepareOpenRouterRequest {τ ρ : Type} (c : ChatReq τ ρ) (thought : String) :
    ChatReq τ ρ :=
  { c with
    model := some CLAUDE_MODEL
    messages := c.messages ++ (if thought = "" then [] else [⟨"assistant", thought⟩]) }

/-- Result of `JSON.parse` on one line of the local endpoint's body, seen
through the destructuring `const { message, done } = JSON.parse(line)`:
`content` is `message?.content` when it is a string (`none` when the
`message` object or its `content` field is missing), `done` the truthiness
of the `done` field. -/
structure OllamaLine where
  content : Option String
  done : Bool
deriving DecidableEq

/-- Contribution of one parsed line to the accumulator: source lines
102-104 append `message.content` only when it is truthy, so an absent or
empty content contributes nothing. -/
def contentPiece (o : OllamaLine) : String :=
  match o.content with
  | some c => if c = "" then "" else c
  | none => ""

/-- Accumulation loop of source lines 99-109: parse each line, skip lines
that fail to parse, append the content piece, and break right after the
first line whose `done` is truthy.  The line parser `pl` stands for
`JSON.parse` followed by the destructuring. -/
def accumulateContent (pl : String → Option OllamaLine) : List String → String
  | [] => ""
  | l :: ls =>
    match pl l with
    | none => accumulateContent pl ls
    | some o =>
      if o.done then contentPiece o
      else contentPiece o ++ accumulateContent pl ls

/-- Characters of the opening tag searched by the regex on line 111. -/
def thinkOpen : List Char := "<think>".data

/-- Source lines 111-112: match `/<think>(.*)/s` against the accumulated
text; on a match, trim group 1 and append the closing tag, otherwise
return the empty string. -/
def thoughtFragment (acc : String) : String :=
  match afterFirst thinkOpen acc.data with
  | some rest => String.mk (trimChars rest) ++ "</think>"
  | none => ""

/-- Source line 96: `rawResponse.split('\n').filter(Boolean)` — split into
lines and drop the falsy (empty) ones. -/
def linesOf (raw : String) : List String :=
  ((splitLines raw.data).map String.mk).filter (fun s => s ≠ "")

/-- Source lines 94-113, `extractThoughtContent`, as a function of the raw
response text and the line parser. -/
def extractThoughtContent (pl : String → Option OllamaLine) (raw : String) : String :=
  thoughtFragment (accumulateContent pl (linesOf raw))

/-- Objects up to and including the first one whose `done` is true
(spec-side description of the accumulation cut-off). -/
def takeThroughDone : List OllamaLine → List OllamaLine
  | [] => []
  | o :: os => if o.done then [o] else o :: takeThroughDone os

/-- Content delta of a parsed object, the empty string when absent. -/
def contentOf (o : OllamaLine) : String := o.content.getD ""

/-- Concatenation of content deltas in order. -/
def concatContents : List OllamaLine → String
  | [] => ""
  | o :: os => contentOf o ++ concatContents os

/-- Spec-side rendering of thought extraction, following the claim's words:
split the body into lines, skip any line that fails to parse, concatenate
the `message.content` fields of parsed lines in order stopping after the
first line with `done` true; then, if the text contains `<think>`, take
everything after its first occurrence, trim, and append `</think>`,
otherwise return the empty string. -/
def extractThoughtSpec (pl : String → Option OllamaLine) (raw : String) : String :=
  let objs := ((splitLines raw.data).map String.mk).filterMap pl
  let acc := concatContents (takeThroughDone objs)
  if (afterFirst thinkOpen acc.data).isSome then
    String.mk (trimChars ((afterFirst thinkOpen acc.data).getD [])) ++ "</think>"
  else ""

/-- Scan of a JSON string literal body up to its closing quote, returning
the content and the remainder after the quote; backslash escapes are
rejected (such a line simply fails to parse and is skipped), which is
sufficient for the protocol lines at issue. -/
def parseStringLit : List Char → Option (List Char × List Char)
  | [] => none
  | c :: cs =>
    if c = '"' then some ([], cs)
    else if c = '\\' then none
    else
      match parseStringLit cs with
      | some p => some (c :: p.1, p.2)
      | none => none

/-- Modelled `JSON.parse` plus destructuring, restricted to lines of the
local endpoint's shape `{"message":{"content":STRING},"done":BOOL}`; any
other line fails to parse (and is therefore skipped by the loop). -/
def parseOllamaLine (s : String) : Option OllamaLine :=
  let pre := "\x7b\"message\":\x7b\"content\":\"".data
  if pre.isPrefixOf s.data then
    match parseStringLit (s.data.drop pre.length) with
    | none => none
    | some p =>
      if p.2 = "\x7d,\"done\":false\x7d".data then some ⟨some (String.mk p.1), false⟩
      else if p.2 = "\x7d,\"done\":true\x7d".data then some ⟨some (String.mk p.1), true⟩
      else none
  else none

/-- Worked example input of the spec: the two newline-delimited local
endpoint output lines. -/
def exampleRaw : String :=
  "\x7b\"message\":\x7b\"content\":\"<think>ab\"\x7d,\"done\":false\x7d\n\x7b\"message\":\x7b\"content\":\"cd</think>xy\"\x7d,\"done\":true\x7d"

/-- Error reaching `handleError`: either an `APIError` instance (carrying a
status code) or any other thrown value with a message. -/
inductive JsError where
  | api (message : String) (statusCode : Nat) : JsError
  | other (message : String) : JsError
deriving DecidableEq

/-- Source lines 174-180, `handleError`: status is the carried code for
`APIError` instances and 500 otherwise; the JSON body is the object
`{error: error.message || 'Internal server error'}`, modelled as a
key-value list.  The function is total: the mapper never re-throws. -/
def handleError (e : JsError) : Nat × List (String × String) :=
  match e with
  | JsError.api m c => (c, [("error", if m = "" then "Internal server error" else m)])
  | JsError.other m => (500, [("error", if m = "" then "Internal server error" else m)])

/-- HTTP response of one `fetch` call: status and body text. -/
structure FetchResult where
  status : Nat
  body : String
deriving DecidableEq

/-- The `response.ok` predicate of fetch: status in the 2xx range. -/
def fetchOk (r : FetchResult) : Bool :=
  decide (200 ≤ r.status) && decide (r.status ≤ 299)

/-- Environment of one request: responses of the two outbound endpoints
and the line parser (`JSON.parse`). -/
structure Env (τ ρ : Type) where
  localResp : ChatReq τ ρ → FetchResult
  upstreamResp : ChatReq τ ρ → FetchResult
  parseLine : String → Option OllamaLine

/-- Outbound network call recorded by the handler, in order. -/
inductive NetEvent (τ ρ : Type) where
  | localCall (r : ChatReq τ ρ) : NetEvent τ ρ
  | upstreamCall (r : ChatReq τ ρ) (key : String) : NetEvent τ ρ
deriving DecidableEq

/-- Observable outcome of the handler: an error response produced by
`handleError`, a forwarded JSON body, or a relayed stream. -/
inductive Outcome where
  | errJson (status : Nat) (body : List (String × String)) : Outcome
  | okJson (body : String) : Outcome
  | okStream (body : String) : Outcome
deriving DecidableEq

/-- Catch clause of the endpoint (source lines 58-60): a thrown `APIError`
is passed to `handleError`. -/
def errResponse (e : APIError) : Outcome :=
  Outcome.errJson (handleError (JsError.api e.message e.statusCode)).1
    (handleError (JsError.api e.message e.statusCode)).2

/-- Source line 47: `lastMessage?.role === 'tool'`. -/
def lastRoleTool {τ ρ : Type} (c : ChatReq τ ρ) : Bool :=
  match c.messages.getLast? with
  | some m => m.role == "tool"
  | none => false

/-- Source lines 115-137, `handleOpenRouterRequest`: extract the key (this
is where a missing credential raises 401), build the upstream request,
call the upstream endpoint, and either relay or fail; `evs` are the
network events already performed. -/
def openRouterPhase {τ ρ : Type} (env : Env τ ρ) (auth : Option String)
    (chatReq : ChatReq τ ρ) (thought : String) (evs : List (NetEvent τ ρ)) :
    List (NetEvent τ ρ) × Outcome :=
  match getOpenRouterKey auth with
  | Except.error e => (evs, errResponse e)
  | Except.ok key =>
    let ureq := prepareOpenRouterRequest chatReq thought
    let resp := env.upstreamResp ureq
    let evs2 := evs ++ [NetEvent.upstreamCall ureq key]
    if fetchOk resp then
      (evs2, if chatReq.stream then Outcome.okStream resp.body else Outcome.okJson resp.body)
    else
      (evs2, errResponse ⟨"OpenRouter request failed: " ++ Nat.repr resp.status, resp.status⟩)

/-- Source lines 42-61, the `POST /v1/chat/completions` handler: validate,
skip the local model when the last message has role `tool`, otherwise call
the local endpoint and extract the thought, then run the upstream phase.
Returns the ordered list of outbound calls together with the outcome. -/
def runHandler {μ τ ρ : Type} (env : Env τ ρ) (auth : Option String)
    (p : Payload μ τ ρ) : List (NetEvent τ ρ) × Outcome :=
  match validateRequest p with
  | Except.error e => ([], errResponse e)
  | Except.ok chatReq =>
    if lastRoleTool chatReq then
      openRouterPhase env auth chatReq "" []
    else
      let oreq := prepareOllamaRequest chatReq
      let resp := env.localResp oreq
      if fetchOk resp then
        openRouterPhase env auth chatReq (extractThoughtContent env.parseLine resp.body)
          [NetEvent.localCall oreq]
      else
        ([NetEvent.localCall oreq],
          errResponse ⟨"Ollama request failed: " ++ Nat.repr resp.status, resp.status⟩)

/-- Acceptance of a validation result. -/
def isAccepted {τ ρ : Type} : Except APIError (ChatReq τ ρ) → Bool
  | Except.ok _ => true
  | Except.error _ => false

/-- State of `handleStreamingResponse` (source lines 153-172): whether the
heartbeat interval is still scheduled and whether the read loop has
finished (the `finally` block ran). -/
structure RelayState where
  timerActive : Bool
  ended : Bool
deriving DecidableEq

/-- State right after the headers are set and the interval is created. -/
def relayInit : RelayState := ⟨true, false⟩

/-- External events the relay can encounter: an upstream chunk, upstream
stream end, a read error, the caller disconnecting, and a 15-second timer
tick. -/
inductive RelayEv where
  | chunk (s : String) : RelayEv
  | upstreamDone : RelayEv
  | readErr : RelayEv
  | callerDisconnect : RelayEv
  | tick : RelayEv
deriving DecidableEq

/-- Writes the relay performs on the caller connection. -/
inductive RelayOut where
  | data (s : String) : RelayOut
  | heartbeat : RelayOut
  | endResponse : RelayOut
deriving DecidableEq

/-- One step of `handleStreamingResponse`.  A chunk is forwarded verbatim;
stream end and a read error both reach the `finally` block, which clears
the interval and ends the response; a timer tick writes the heartbeat
frame while the interval is scheduled.  The source registers no listener
for the caller's connection closing, so a `callerDisconnect` event changes
nothing: the loop keeps running and the interval stays scheduled. -/
def relayStep (st : RelayState) (e : RelayEv) : RelayState × List RelayOut :=
  if st.ended then (st, [])
  else
    match e with
    | RelayEv.chunk s => (st, [RelayOut.data s])
    | RelayEv.upstreamDone => (⟨false, true⟩, [RelayOut.endResponse])
    | RelayEv.readErr => (⟨false, true⟩, [RelayOut.endResponse])
    | RelayEv.callerDisconnect => (st, [])
    | RelayEv.tick => (st, if st.timerActive then [RelayOut.heartbeat] else [])

/-- Run of the relay over a list of events, collecting all writes. -/
def relayRun (st : RelayState) : List RelayEv → RelayState × List RelayOut
  | [] => (st, [])
  | e :: es =>
    let p := relayStep st e
    let q := relayRun p.1 es
    (q.1, p.2 ++ q.2)

/-- Writes performed over an event list, starting from the initial state. -/
def relayOutputs (evs : List RelayEv) : List RelayOut :=
  (relayRun relayInit evs).2

/-- Demonstration environment: both endpoints answer 200 with an empty
body, and no line parses. -/
def demoEnv : Env Unit Unit :=
  ⟨fun _ => ⟨200, ""⟩, fun _ => ⟨200, ""⟩, fun _ => none⟩

/-- Demonstration payload whose last message has role `user`. -/
def demoPayloadUser : Payload Unit Unit Unit :=
  ⟨MessagesVal.arr [⟨"user", "hi"⟩], false, none, none, none, ()⟩

/-- Demonstration payload whose last message has role `tool`. -/
def demoPayloadTool : Payload Unit Unit Unit :=
  ⟨MessagesVal.arr [⟨"tool", "result"⟩], false, none, none, none, ()⟩

/-- Validated form of `demoPayloadTool`. -/
def demoChatTool : ChatReq Unit Unit :=
  ⟨[⟨"tool", "result"⟩], false, none, none, none, ()⟩

/-- C4: the validator accepts a payload exactly when its `messages` field is
an array with at least one element, passing every field through untouched on
acceptance; every other payload fails with the 400 `APIError`; and acceptance
depends on the `messages` field alone. -/
theorem C4_validator_exact {μ τ ρ : Type} (p : Payload μ τ ρ) :
    (∀ ms : List Message, p.messages = MessagesVal.arr ms → ms ≠ [] →
      validateRequest p = Except.ok ⟨ms, p.stream, p.model, p.tools, p.options_stop, p.rest⟩) ∧
    ((∀ ms : List Message, p.messages = MessagesVal.arr ms → ms = []) →
      validateRequest p = Except.error ⟨"Invalid request: messages array is required", 400⟩) ∧
    (∀ q : Payload μ τ ρ, p.messages = q.messages →
      isAccepted (validateRequest p) = isAccepted (validateRequest q)) := by
  refine ⟨?_, ?_, ?_⟩
  · intro ms h hne
    simp [validateRequest, h, List.length_eq_zero, hne]
  · intro hall
    cases h : p.messages with
    | absent => simp [validateRequest, h]
    | nonArray v => simp [validateRequest, h]
    | arr ms =>
      have : ms = [] := hall ms h
      simp [validateRequest, h, this]
  · intro q h
    simp only [validateRequest, h]
    cases q.messages with
    | absent => rfl
    | nonArray v => rfl
    | arr ms =>
      by_cases hms : ms.length = 0 <;> simp [hms, isAccepted]

/-- C4 witness: a concrete one-message payload is accepted unchanged. -/
theorem C4_witness :
    validateRequest
        (⟨MessagesVal.arr [⟨"user", "hi"⟩], false, none, none, none, ()⟩ :
          Payload Unit Unit Unit)
      = Except.ok ⟨[⟨"user", "hi"⟩], false, none, none, none, ()⟩ :=
  (C4_validator_exact _).1 [⟨"user", "hi"⟩] rfl (by decide)

/-- C6: the upstream request is the original request with the model
overridden to the fixed upstream name and, exactly when the thought
fragment is non-empty, one assistant message holding the fragment appended
after all original messages; every other field is unchanged. -/
theorem C6_upstream_request_shape {τ ρ : Type} (c : ChatReq τ ρ) (thought : String) :
    (prepareOpenRouterRequest c thought).model = some CLAUDE_MODEL ∧
    (thought ≠ "" →
      (prepareOpenRouterRequest c thought).messages
        = c.messages ++ [⟨"assistant", thought⟩]) ∧
    (thought = "" → (prepareOpenRouterRequest c thought).messages = c.messages) ∧
    (prepareOpenRouterRequest c thought).stream = c.stream ∧
    (prepareOpenRouterRequest c thought).tools = c.tools ∧
    (prepareOpenRouterRequest c thought).options_stop = c.options_stop ∧
    (prepareOpenRouterRequest c thought).rest = c.rest := by
  refine ⟨rfl, ?_, ?_, rfl, rfl, rfl, rfl⟩
  · intro h
    simp [prepareOpenRouterRequest, h]
  · intro h
    simp [prepareOpenRouterRequest, h]

/-- C6 witness: with a non-empty fragment the assistant message is appended
after the original messages of a concrete request. -/
theorem C6_witness :
    ("t" : String) ≠ "" ∧
    (prepareOpenRouterRequest
        (⟨[⟨"user", "hi"⟩], false, none, none, none, ()⟩ : ChatReq Unit Unit) "t").messages
      = [⟨"user", "hi"⟩] ++ [⟨"assistant", "t"⟩] :=
  ⟨by decide, (C6_upstream_request_shape _ "t").2.1 (by decide)⟩

/-- C7: the request sent to the local endpoint has the `tools` field
removed, every `tool` role remapped to `user` with other roles and all
contents unchanged and order preserved (a map over the original list), the
model forced to the fixed local name, and the stop-sequence option equal to
the single literal token `</think>`. -/
theorem C7_local_request_shape {τ ρ : Type} (c : ChatReq τ ρ) :
    (prepareOllamaRequest c).tools = none ∧
    (prepareOllamaRequest c).model = some DEEPSEEK_CHAT_MODEL ∧
    (prepareOllamaRequest c).options_stop = some ["</think>"] ∧
    (prepareOllamaRequest c).messages = c.messages.map remapMsg ∧
    (∀ m : Message, (remapMsg m).role = (if m.role = "tool" then "user" else m.role) ∧
      (remapMsg m).content = m.content) ∧
    (prepareOllamaRequest c).stream = c.stream ∧
    (prepareOllamaRequest c).rest = c.rest :=
  ⟨rfl, rfl, rfl, rfl, fun _ => ⟨rfl, rfl⟩, rfl, rfl⟩

/-- C8: the error mapper answers with the carried status code for an
`APIError` and 500 for any other error, and the body is always a JSON
object of shape `\x7berror: <message text>\x7d` (the message text, with the
fixed default when the message is empty); the mapper is a total function,
so it never re-throws. -/
theorem C8_error_mapper (e : JsError) :
    (handleError e).1 = (match e with | JsError.api _ c => c | JsError.other _ => 500) ∧
    ∃ m : String, (handleError e).2 = [("error", m)] ∧
      m = (match e with
           | JsError.api msg _ => if msg = "" then "Internal server error" else msg
           | JsError.other msg => if msg = "" then "Internal server error" else msg) := by
  cases e
  · exact ⟨rfl, ⟨_, rfl, rfl⟩⟩
  · exact ⟨rfl, ⟨_, rfl, rfl⟩⟩

/-- Removal of the first occurrence yields the empty list exactly for the
empty input or an input equal to the pattern itself. -/
theorem replaceFirst_eq_nil_iff (pat l : List Char) :
    replaceFirst pat l = [] ↔ l = [] ∨ l = pat := by
  cases l with
  | nil => simp [replaceFirst]
  | cons c cs =>
    by_cases h : pat.isPrefixOf (c :: cs)
    · have hpre : pat <+: c :: cs := List.isPrefixOf_iff_prefix.mp h
      have hlen : pat.length ≤ (c :: cs).length := hpre.length_le
      simp only [replaceFirst, h, if_true]
      constructor
      · intro hdrop
        have hle : (c :: cs).length ≤ pat.length := List.drop_eq_nil_iff.mp hdrop
        right
        exact (hpre.eq_of_length (Nat.le_antisymm hlen hle)).symm
      · rintro (he | he)
        · cases he
        · rw [he]
          exact List.drop_length pat
    · simp only [replaceFirst, h, if_false]
      constructor
      · intro hx
        cases hx
      · rintro (he | he)
        · cases he
        · have : pat.isPrefixOf (c :: cs) = true := by
            rw [he]
            exact List.isPrefixOf_iff_prefix.mpr (List.prefix_refl pat)
          exact absurd this h

/-- When the pattern does not occur, removal of its first occurrence keeps
the input unchanged. -/
theorem replaceFirst_of_afterFirst_none (pat : List Char) :
    ∀ l : List Char, afterFirst pat l = none → replaceFirst pat l = l
  | [] => fun _ => rfl
  | c :: cs => by
    by_cases h : pat.isPrefixOf (c :: cs)
    · intro hn
      simp [afterFirst, h] at hn
    · intro hn
      simp only [afterFirst, h, if_false] at hn
      simp [replaceFirst, h, replaceFirst_of_afterFirst_none pat cs hn]

/-- C9: credential extraction fails with the 401 error exactly for a
missing header, the empty header, or the header `"Bearer "`; any other
header value is forwarded with only the first occurrence of the literal
`"Bearer "` removed, and a header in which the literal does not occur at
all (no prefix, lowercase prefix, ...) is forwarded verbatim. -/
theorem C9_credential_rules :
    getOpenRouterKey none = Except.error ⟨"Missing OpenRouter API key", 401⟩ ∧
    getOpenRouterKey (some "") = Except.error ⟨"Missing OpenRouter API key", 401⟩ ∧
    getOpenRouterKey (some "Bearer ") = Except.error ⟨"Missing OpenRouter API key", 401⟩ ∧
    (∀ a : String, a ≠ "" → a ≠ "Bearer " →
      getOpenRouterKey (some a)
        = Except.ok (String.mk (replaceFirst "Bearer ".data a.data))) ∧
    (∀ a : String, afterFirst "Bearer ".data a.data = none → a ≠ "" →
      getOpenRouterKey (some a) = Except.ok a) := by
  refine ⟨by decide, by decide, by decide, ?_, ?_⟩
  · intro a ha hb
    have hkey : String.mk (replaceFirst "Bearer ".data a.data) ≠ "" := by
      intro he
      have hdata : replaceFirst "Bearer ".data a.data = [] := congrArg String.data he
      rcases (replaceFirst_eq_nil_iff _ _).mp hdata with h1 | h1
      · exact ha (String.ext h1)
      · exact hb (String.ext h1)
    simp [getOpenRouterKey, hkey]
  · intro a hafter ha
    have hrep : replaceFirst "Bearer ".data a.data = a.data :=
      replaceFirst_of_afterFirst_none _ _ hafter
    have hmk : String.mk (replaceFirst "Bearer ".data a.data) = a := by
      rw [hrep]
    simp [getOpenRouterKey, hmk, ha]

/-- C9 witness: a lowercase-prefixed header is forwarded verbatim, not
rejected. -/
theorem C9_witness :
    afterFirst "Bearer ".data "bearer x".data = none ∧ ("bearer x" : String) ≠ "" ∧
    getOpenRouterKey (some "bearer x") = Except.ok "bearer x" :=
  ⟨by decide, by decide, C9_credential_rules.2.2.2.2 "bearer x" (by decide) (by decide)⟩

/-- Trimming a string of whitespace characters leaves nothing. -/
theorem trimChars_of_all_whitespace (l : List Char)
    (h : ∀ ch ∈ l, ch.isWhitespace = true) : trimChars l = [] := by
  unfold trimChars
  have h1 : l.dropWhile Char.isWhitespace = [] := List.dropWhile_eq_nil_iff.mpr h
  simp [h1]

/-- C10: when everything after the first `<think>` tag is whitespace (or
nothing), the extracted fragment is exactly the non-empty string
`"</think>"`, so an assistant message with content `"</think>"` is appended
to the upstream request's message list. -/
theorem C10_whitespace_after_think (acc : String) (rest : List Char)
    (h1 : afterFirst thinkOpen acc.data = some rest)
    (h2 : ∀ ch ∈ rest, ch.isWhitespace = true) :
    thoughtFragment acc = "</think>" ∧ thoughtFragment acc ≠ "" ∧
    (∀ (τ ρ : Type) (c : ChatReq τ ρ),
      (prepareOpenRouterRequest c (thoughtFragment acc)).messages
        = c.messages ++ [⟨"assistant", "</think>"⟩]) := by
  have hstep : thoughtFragment acc = String.mk (trimChars rest) ++ "</think>" := by
    unfold thoughtFragment
    rw [h1]
  have hfrag : thoughtFragment acc = "</think>" := by
    rw [hstep, trimChars_of_all_whitespace rest h2]
    rfl
  refine ⟨hfrag, ?_, ?_⟩
  · rw [hfrag]
    decide
  · intro τ ρ c
    rw [hfrag]
    simp [prepareOpenRouterRequest]

/-- C10 witness: a tag followed by one space yields the fragment
`"</think>"`. -/
theorem C10_witness :
    afterFirst thinkOpen "<think> ".data = some [' '] ∧
    thoughtFragment "<think> " = "</think>" :=
  ⟨by decide, (C10_whitespace_after_think "<think> " [' '] (by decide) (by decide)).1⟩

/-- Fragment extraction written as a conditional on tag presence. -/
theorem thoughtFragment_eq_if (acc : String) :
    thoughtFragment acc
      = (if (afterFirst thinkOpen acc.data).isSome then
          String.mk (trimChars ((afterFirst thinkOpen acc.data).getD [])) ++ "</think>"
        else "") := by
  cases haf : afterFirst thinkOpen acc.data with
  | none => simp [thoughtFragment, haf]
  | some r => simp [thoughtFragment, haf]

/-- Per-line contribution of the source loop agrees with the plain content
delta: appending only a truthy content equals appending `content` or
nothing. -/
theorem contentPiece_eq_contentOf (o : OllamaLine) : contentPiece o = contentOf o := by
  cases h : o.content with
  | none => simp [contentPiece, contentOf, h]
  | some c =>
    by_cases hc : c = "" <;> simp [contentPiece, contentOf, h, hc]

/-- The break-at-done accumulation loop computes the concatenation of the
content deltas of the parsed objects up to and including the first one
with `done` true. -/
theorem accumulateContent_eq_concat (pl : String → Option OllamaLine) :
    ∀ ls : List String,
      accumulateContent pl ls = concatContents (takeThroughDone (List.filterMap pl ls))
  | [] => rfl
  | l :: ls => by
    cases h : pl l with
    | none =>
      simp [accumulateContent, h, List.filterMap_cons, accumulateContent_eq_concat pl ls]
    | some o =>
      by_cases hd : o.done = true
      · simp [accumulateContent, h, hd, List.filterMap_cons, takeThroughDone,
          concatContents, contentPiece_eq_contentOf, String.append_empty]
      · simp [accumulateContent, h, hd, List.filterMap_cons, takeThroughDone,
          concatContents, contentPiece_eq_contentOf, accumulateContent_eq_concat pl ls]

/-- Dropping falsy lines before parsing changes nothing when the empty
line fails to parse. -/
theorem filterMap_filter_ne_empty (pl : String → Option OllamaLine) (h : pl "" = none) :
    ∀ ls : List String,
      List.filterMap pl (ls.filter (fun s => s ≠ "")) = List.filterMap pl ls
  | [] => rfl
  | l :: ls => by
    by_cases he : l = ""
    · subst he
      have hf : List.filter (fun s => s ≠ "") ("" :: ls) = List.filter (fun s => s ≠ "") ls := by
        simp [List.filter_cons]
      rw [hf, filterMap_filter_ne_empty pl h ls, List.filterMap_cons, h]
    · have hf : List.filter (fun s => s ≠ "") (l :: ls)
          = l :: List.filter (fun s => s ≠ "") ls := by
        simp [List.filter_cons, he]
      rw [hf, List.filterMap_cons, List.filterMap_cons, filterMap_filter_ne_empty pl h ls]

/-- C2: thought extraction equals its spec-side description — split into
lines, skip lines that fail to parse, concatenate content deltas stopping
after the first `done`, then take everything after the first `<think>`,
trim, and append `</think>` (empty fragment when no tag) — and on the
spec's two worked-example lines the fragment is
`"abcd</think>xy</think>"`. -/
theorem C2_thought_extraction :
    (∀ pl : String → Option OllamaLine, pl "" = none →
      ∀ raw : String, extractThoughtContent pl raw = extractThoughtSpec pl raw) ∧
    extractThoughtContent parseOllamaLine exampleRaw = "abcd</think>xy</think>" := by
  constructor
  · intro pl h raw
    unfold extractThoughtContent linesOf
    rw [accumulateContent_eq_concat, filterMap_filter_ne_empty pl h, thoughtFragment_eq_if]
    rfl
  · decide

/-- C2 witness: the general equivalence applied to the modelled line parser
on a concrete body. -/
theorem C2_witness :
    parseOllamaLine "" = none ∧
    extractThoughtContent parseOllamaLine "abc" = extractThoughtSpec parseOllamaLine "abc" :=
  ⟨by decide, C2_thought_extraction.1 parseOllamaLine (by decide) "abc"⟩

/-- Once the read loop has finished, the relay does nothing more: no
state change and no further writes, whatever events arrive. -/
theorem relayRun_of_ended (st : RelayState) (hst : st.ended = true) :
    ∀ evs : List RelayEv, relayRun st evs = (st, [])
  | [] => rfl
  | e :: es => by
    have hstep : relayStep st e = (st, []) := by
      simp [relayStep, hst]
    simp [relayRun, hstep, relayRun_of_ended st hst es]

/-- Splitting a run: outputs of a concatenated event list are the outputs
of the first part followed by the outputs of the second part run from the
intermediate state. -/
theorem relayRun_append (st : RelayState) :
    ∀ a b : List RelayEv,
      relayRun st (a ++ b)
        = ((relayRun (relayRun st a).1 b).1,
           (relayRun st a).2 ++ (relayRun (relayRun st a).1 b).2)
  | [], b => by simp [relayRun]
  | e :: es, b => by
    simp [relayRun, relayRun_append (relayStep st e).1 es b]

/-- After an upstream-done or read-error event, the loop has finished. -/
theorem relayRun_ended_of_mem (st : RelayState) :
    ∀ evs : List RelayEv, RelayEv.upstreamDone ∈ evs ∨ RelayEv.readErr ∈ evs →
      (relayRun st evs).1.ended = true
  | [], h => by rcases h with h | h <;> cases h
  | e :: es, h => by
    by_cases htail : RelayEv.upstreamDone ∈ es ∨ RelayEv.readErr ∈ es
    · have := relayRun_ended_of_mem (relayStep st e).1 es htail
      simpa [relayRun] using this
    · have he : e = RelayEv.upstreamDone ∨ e = RelayEv.readErr := by
        rcases h with h | h
        · rcases List.mem_cons.mp h with h1 | h1
          · exact Or.inl h1.symm
          · exact absurd (Or.inl h1) htail
        · rcases List.mem_cons.mp h with h1 | h1
          · exact Or.inr h1.symm
          · exact absurd (Or.inr h1) htail
      have hstep : (relayStep st e).1.ended = true := by
        by_cases hse : st.ended = true
        · simp [relayStep, hse]
        · rcases he with he | he <;> subst he <;> simp [relayStep, hse]
      have hfin := relayRun_of_ended (relayStep st e).1 hstep es
      simp [relayRun, hfin, hstep]

/-- The relay clears the interval in the same step in which it finishes:
a finished run that started from a state satisfying the same invariant has
an inactive timer. -/
theorem relayRun_inv (st : RelayState)
    (hinv : st.ended = true → st.timerActive = false) :
    ∀ evs : List RelayEv,
      (relayRun st evs).1.ended = true → (relayRun st evs).1.timerActive = false
  | [] => hinv
  | e :: es => by
    have hstep : (relayStep st e).1.ended = true → (relayStep st e).1.timerActive = false := by
      by_cases hse : st.ended = true
      · simpa [relayStep, hse] using hinv
      · cases e <;> simp [relayStep, hse]
    have := relayRun_inv (relayStep st e).1 hstep es
    simpa [relayRun] using this

/-- C3 counterexample: the source registers no handler for the caller
connection closing, so after a caller disconnect the next timer tick still
writes a heartbeat frame, contradicting the claim that no heartbeat fires
after disconnect. -/
theorem C3_heartbeat_after_disconnect :
    relayOutputs [RelayEv.chunk "data", RelayEv.callerDisconnect, RelayEv.tick]
      = [RelayOut.data "data", RelayOut.heartbeat] := by
  decide

/-- C3 amended: on the exit paths the code actually has — upstream stream
end and read error, both of which run the `finally` block — the heartbeat
timer is cancelled and nothing more is ever written, so no heartbeat fires
after those exits; caller disconnect, however, is not an exit path. -/
theorem C3_cancellation_on_real_exits (pre post : List RelayEv)
    (h : RelayEv.upstreamDone ∈ pre ∨ RelayEv.readErr ∈ pre) :
    (relayRun relayInit pre).1.timerActive = false ∧
    relayOutputs (pre ++ post) = relayOutputs pre := by
  have hend : (relayRun relayInit pre).1.ended = true :=
    relayRun_ended_of_mem relayInit pre h
  constructor
  · exact relayRun_inv relayInit (by decide) pre hend
  · unfold relayOutputs
    rw [relayRun_append, relayRun_of_ended _ hend]
    simp

/-- C3 witness: after a stream-end event the timer is off and a later tick
writes nothing. -/
theorem C3_witness :
    (RelayEv.upstreamDone ∈ [RelayEv.upstreamDone]
      ∨ RelayEv.readErr ∈ [RelayEv.upstreamDone]) ∧
    (relayRun relayInit [RelayEv.upstreamDone]).1.timerActive = false ∧
    relayOutputs ([RelayEv.upstreamDone] ++ [RelayEv.tick])
      = relayOutputs [RelayEv.upstreamDone] :=
  ⟨Or.inl (by decide),
    C3_cancellation_on_real_exits [RelayEv.upstreamDone] [RelayEv.tick]
      (Or.inl (by decide))⟩

/-- With no Authorization header, the upstream phase stops at the
credential check: no upstream call, and the 401 error response. -/
theorem openRouterPhase_none {τ ρ : Type} (env : Env τ ρ) (c : ChatReq τ ρ)
    (thought : String) (evs : List (NetEvent τ ρ)) :
    openRouterPhase env none c thought evs
      = (evs, Outcome.errJson 401 [("error", "Missing OpenRouter API key")]) := by
  have herr : errResponse ⟨"Missing OpenRouter API key", 401⟩
      = Outcome.errJson 401 [("error", "Missing OpenRouter API key")] := by
    decide
  simp [openRouterPhase, getOpenRouterKey, herr]

/-- C1 counterexample: for a concrete request with no Authorization header
whose last message is not a tool message, the handler does fail with 401,
but only after a request has been sent to the local reasoning endpoint —
the recorded call trace is non-empty at the moment the credential check
fails, contradicting the claim that no outbound call precedes it. -/
theorem C1_local_call_before_401 :
    (runHandler demoEnv none demoPayloadUser).2
        = Outcome.errJson 401 [("error", "Missing OpenRouter API key")] ∧
    (runHandler demoEnv none demoPayloadUser).1
        = [NetEvent.localCall (prepareOllamaRequest
            ⟨[⟨"user", "hi"⟩], false, none, none, none, ()⟩)] := by
  constructor
  · decide
  · decide

/-- C1 amended: with the Authorization header absent, no upstream call is
ever made, and the handler fails with status 401 whenever control reaches
the credential check (the last message is a tool message, or the local
call — which the code performs first — succeeds); the local reasoning
endpoint, however, is contacted before the credential check in the
non-tool case. -/
theorem C1_missing_auth {μ τ ρ : Type} (env : Env τ ρ) (p : Payload μ τ ρ) :
    (∀ (r : ChatReq τ ρ) (key : String),
      NetEvent.upstreamCall r key ∉ (runHandler env none p).1) ∧
    (∀ c : ChatReq τ ρ, validateRequest p = Except.ok c →
      (lastRoleTool c = true ∨ fetchOk (env.localResp (prepareOllamaRequest c)) = true) →
      (runHandler env none p).2
        = Outcome.errJson 401 [("error", "Missing OpenRouter API key")]) := by
  constructor
  · intro r key
    cases hv : validateRequest p with
    | error e => simp [runHandler, hv]
    | ok c =>
      cases hlt : lastRoleTool c with
      | true => simp [runHandler, hv, hlt, openRouterPhase_none]
      | false =>
        cases hfo : fetchOk (env.localResp (prepareOllamaRequest c)) with
        | true => simp [runHandler, hv, hlt, hfo, openRouterPhase_none]
        | false => simp [runHandler, hv, hlt, hfo]
  · intro c hv hor
    cases hlt : lastRoleTool c with
    | true => simp [runHandler, hv, hlt, openRouterPhase_none]
    | false =>
      rcases hor with h | h
      · rw [hlt] at h
        cases h
      · simp [runHandler, hv, hlt, h, openRouterPhase_none]

/-- C1 witness: the amended statement applied to the concrete demo
request. -/
theorem C1_witness :
    validateRequest demoPayloadUser
        = Except.ok ⟨[⟨"user", "hi"⟩], false, none, none, none, ()⟩ ∧
    (runHandler demoEnv none demoPayloadUser).2
        = Outcome.errJson 401 [("error", "Missing OpenRouter API key")] :=
  ⟨by decide,
    (C1_missing_auth demoEnv demoPayloadUser).2
      ⟨[⟨"user", "hi"⟩], false, none, none, none, ()⟩ (by decide)
      (Or.inr (by decide))⟩

/-- C5: when the validated request's last message has role `tool`, the
handler never calls the local reasoning endpoint, and any upstream call it
makes uses the request built from the empty thought fragment. -/
theorem C5_tool_skips_local {μ τ ρ : Type} (env : Env τ ρ) (auth : Option String)
    (p : Payload μ τ ρ) (c : ChatReq τ ρ) (m : Message)
    (hv : validateRequest p = Except.ok c)
    (hl : c.messages.getLast? = some m) (hr : m.role = "tool") :
    (∀ r : ChatReq τ ρ, NetEvent.localCall r ∉ (runHandler env auth p).1) ∧
    (∀ (r : ChatReq τ ρ) (key : String),
      NetEvent.upstreamCall r key ∈ (runHandler env auth p).1 →
      r = prepareOpenRouterRequest c "") := by
  have hlt : lastRoleTool c = true := by
    simp [lastRoleTool, hl, hr]
  have hrun : runHandler env auth p = openRouterPhase env auth c "" [] := by
    simp [runHandler, hv, hlt]
  rw [hrun]
  cases hk : getOpenRouterKey auth with
  | error e =>
    constructor
    · intro r
      simp [openRouterPhase, hk]
    · intro r key hmem
      simp [openRouterPhase, hk] at hmem
  | ok key0 =>
    constructor
    · intro r
      by_cases hfo : fetchOk (env.upstreamResp (prepareOpenRouterRequest c "")) = true <;>
        simp [openRouterPhase, hk, hfo]
    · intro r key hmem
      by_cases hfo : fetchOk (env.upstreamResp (prepareOpenRouterRequest c "")) = true <;>
        simp [openRouterPhase, hk, hfo] at hmem <;>
        exact hmem.1

/-- C5 witness: on a concrete tool-terminated conversation the trace of
the handler contains no local call. -/
theorem C5_witness :
    validateRequest demoPayloadTool = Except.ok demoChatTool ∧
    demoChatTool.messages.getLast? = some ⟨"tool", "result"⟩ ∧
    NetEvent.localCall (prepareOllamaRequest demoChatTool)
      ∉ (runHandler demoEnv (some "Bearer k") demoPayloadTool).1 :=
  ⟨by decide, by decide,
    (C5_tool_skips_local demoEnv (some "Bearer k") demoPayloadTool demoChatTool
      ⟨"tool", "result"⟩ (by decide) (by decide) rfl).1 _⟩

end CursorProxy
